import Mathlib

/-!
Shallow embedding of the express-starter request pipeline: the RBAC
authorization middlewares (`hasRole`, `hasPermission`), the JWT verification
helpers, the paginated list services, the request validator, the
role-permission assignment service, the login flow and the sliding-window
rate limiter, together with theorems settling the specification claims.
-/

namespace ExpressStarter

/-- Modelled from the spec: the repository's `src/lib/http-status-codes.ts`
module is not part of the provided source slice; the spec (sections 6 and 7)
maps unauthenticated to 401, forbidden to 403, success to 200 and internal
errors to 500. -/
def UNAUTHORIZED : Nat := 401

/-- Modelled from the spec: forbidden status code (spec sections 6 and 7). -/
def FORBIDDEN : Nat := 403

/-- Modelled from the spec: internal server error status code. -/
def INTERNAL_SERVER_ERROR : Nat := 500

/-- Modelled from the spec: success status code. -/
def OK : Nat := 200

/-- Outcome of an express middleware on a request: either control passes to
the next handler (`next()` was called) or a JSON error response with a status
code and message was sent (from `middleware/rate-limit.ts` hasPermission and
`unnamed/part_000` hasRole, which respond with
`{success: false, message, data: null}`). -/
inductive MwOutcome where
  | next : MwOutcome
  | respond (status : Nat) (message : String) : MwOutcome
  deriving DecidableEq, Repr

/-- A permission row (`Permission` table: id, name, description). -/
structure PermRec where
  id : String
  name : String
  description : Option String
  deriving DecidableEq, Repr

/-- A role row (`Role` table: id, name, description, timestamps). -/
structure RoleRec where
  id : String
  name : String
  description : Option String
  created_at : Int
  updated_at : Int
  deriving DecidableEq, Repr

/-- Relational snapshot of the RBAC tables used by the middlewares and the
roles service: `userRoles` holds `(user_id, role_id)` junction rows and
`rolePermissions` holds `(role_id, permission_id)` junction rows. -/
structure Db where
  roles : List RoleRec
  permissions : List PermRec
  userRoles : List (String × String)
  rolePermissions : List (String × String)
  deriving DecidableEq, Repr

/-- The role names of a user, as resolved by the prisma query in `hasRole`
(`userRole.findMany where user_id` with the related role's name included; the
include follows the `role_id` foreign key, modelled by `find?` on the role
table). -/
def userRoleNames (db : Db) (uid : String) : List String :=
  (db.userRoles.filter (fun ur => ur.1 == uid)).filterMap
    (fun ur => (db.roles.find? (fun r => r.id == ur.2)).map (fun r => r.name))

/-- Embedding of `hasRole` from `unnamed/part_000`: 401 when no identity is
attached, then a database round trip resolving the user's role names; OR
semantics over the allowed role names; 403 when none matches. `dbFails`
models the prisma query throwing (cache/database unreachable), which lands in
the catch block. -/
def hasRole (dbFails : Bool) (db : Db) (user : Option String)
    (roles : List String) : MwOutcome :=
  match user with
  | none => .respond UNAUTHORIZED "User not authenticated"
  | some uid =>
    if dbFails then
      .respond INTERNAL_SERVER_ERROR "Failed to check user role"
    else
      let names := userRoleNames db uid
      let hasRequiredRole := roles.any (fun role => names.contains role)
      if hasRequiredRole then .next
      else
        .respond FORBIDDEN
          ("Access denied. Required role(s): " ++ String.intercalate ", " roles)

/-- The permission names a user holds through roles, as resolved by the
nested-include prisma query in `hasPermission` (`userRole.findMany where
user_id`, including each role's `role_permissions` and each of their
`permission.name`; the foreign-key joins are modelled by `filter`/`find?`).
The source collects these into a `Set`; membership in this list coincides
with membership in that set. -/
def userPermissionNames (db : Db) (uid : String) : List String :=
  ((db.userRoles.filter (fun ur => ur.1 == uid)).map
    (fun ur => (db.rolePermissions.filter (fun rp => rp.1 == ur.2)).filterMap
      (fun rp => (db.permissions.find? (fun p => p.id == rp.2)).map
        (fun p => p.name)))).flatten

/-- Embedding of `hasPermission` from `middleware/rate-limit.ts` (the file
also hosting this middleware): 401 when no identity is attached, then a
database round trip building the union of the user's permission names across
all roles; AND semantics over the required permission names; 403 on any
partial match. `dbFails` models the prisma query throwing. -/
def hasPermission (dbFails : Bool) (db : Db) (user : Option String)
    (permissions : List String) : MwOutcome :=
  match user with
  | none => .respond UNAUTHORIZED "User not authenticated"
  | some uid =>
    if dbFails then
      .respond INTERNAL_SERVER_ERROR "Failed to check user permissions"
    else
      let userPermissions := userPermissionNames db uid
      let hasAllPermissions :=
        permissions.all (fun permission => userPermissions.contains permission)
      if hasAllPermissions then .next
      else
        .respond FORBIDDEN
          ("Access denied. Required permission(s): " ++
            String.intercalate ", " permissions)

/-- Spec-level statement that user `uid` holds permission named `p` through
some assigned role: there is a role assignment and a role-permission junction
row leading to a permission row named `p`. The user's effective permission
set of the spec is the union of these names over all assigned roles. -/
def HoldsPermission (db : Db) (uid p : String) : Prop :=
  ∃ ur ∈ db.userRoles, ur.1 = uid ∧
    ∃ rp ∈ db.rolePermissions, rp.1 = ur.2 ∧
      ∃ perm ∈ db.permissions, perm.id = rp.2 ∧ perm.name = p

instance (db : Db) (uid p : String) : Decidable (HoldsPermission db uid p) := by
  unfold HoldsPermission
  infer_instance

/-- Error classes of the external `jsonwebtoken` library's `verify`: the spec
enumerates expired, malformed and wrong-signature tokens as the failure
cases. The library is a third-party dependency, so `verify` itself is kept
abstract and passed as a parameter below. -/
inductive JwtError where
  | expired
  | malformed
  | invalidSignature
  deriving DecidableEq, Repr

/-- The decoded token payload (`JWTPayload` in `lib/jwt.ts`). -/
structure JWTPayload where
  userId : String
  email : String
  deriving DecidableEq, Repr

/-- The two signing secrets from the environment (`JWT_SECRET`,
`JWT_REFRESH_SECRET` in `unnamed/part_000`'s env schema). -/
structure EnvCfg where
  JWT_SECRET : String
  JWT_REFRESH_SECRET : String
  deriving Repr

/-- Embedding of `verifyAccessToken` from `lib/jwt.ts`: `jwt.verify(token,
env.JWT_SECRET)` inside a try/catch whose catch returns null. `jwtVerify`
stands for the library function, taking the token and the secret and either
returning the decoded payload or throwing one of the `JwtError`s. -/
def verifyAccessToken (jwtVerify : String → String → Except JwtError JWTPayload)
    (env : EnvCfg) (token : String) : Option JWTPayload :=
  match jwtVerify token env.JWT_SECRET with
  | .ok decoded => some decoded
  | .error _ => none

/-- Embedding of `verifyRefreshToken` from `lib/jwt.ts`: identical to
`verifyAccessToken` but against `env.JWT_REFRESH_SECRET`. -/
def verifyRefreshToken (jwtVerify : String → String → Except JwtError JWTPayload)
    (env : EnvCfg) (token : String) : Option JWTPayload :=
  match jwtVerify token env.JWT_REFRESH_SECRET with
  | .ok decoded => some decoded
  | .error _ => none

/-- A user row (`User` table: id, name, email, hashed password,
email_verified_at, timestamps). -/
structure UserRow where
  id : String
  name : String
  email : String
  password : String
  email_verified_at : Option Int
  created_at : Int
  updated_at : Int
  deriving DecidableEq, Repr

/-- The field selection applied by the users service (`select` clause in
`getAllUsers`): every column except the password. -/
structure UserView where
  id : String
  name : String
  email : String
  email_verified_at : Option Int
  created_at : Int
  updated_at : Int
  deriving DecidableEq, Repr

/-- Projection corresponding to the prisma `select` in the users service. -/
def userSelect (u : UserRow) : UserView :=
  ⟨u.id, u.name, u.email, u.email_verified_at, u.created_at, u.updated_at⟩

/-- Optional pagination query parameters (`page`, `per_page`). -/
structure PaginationParams where
  page : Option Nat
  per_page : Option Nat
  deriving Repr

/-- JS `x || d` on a possibly-missing numeric parameter: `undefined` and `0`
are falsy and fall back to the default. -/
def orDefault (x : Option Nat) (d : Nat) : Nat :=
  match x with
  | none => d
  | some 0 => d
  | some n => n

/-- `Math.ceil(a / b)` on natural numbers (used for `total_pages` and for the
rate limiter's second conversions), for `b > 0`. -/
def ceilDiv (a b : Nat) : Nat := (a + b - 1) / b

/-- Pagination metadata returned by both list services. -/
structure PaginationMeta where
  total : Nat
  page : Nat
  per_page : Nat
  total_pages : Nat
  has_next_page : Bool
  has_prev_page : Bool
  deriving DecidableEq, Repr

/-- The prisma `orderBy: { created_at: "desc" }` on the users table. -/
def sortUsersByCreatedDesc (rows : List UserRow) : List UserRow :=
  rows.mergeSort (fun a b => decide (b.created_at ≤ a.created_at))

/-- Result shape of `getAllUsers`. -/
structure PagedUsers where
  data : List UserView
  meta : PaginationMeta
  deriving DecidableEq, Repr

/-- Embedding of `getAllUsers` from the users service (hosted in
`middleware/auth.ts`): defaults `page||1`, `per_page||10`, computes `skip =
(page-1)*per_page`, counts the table, fetches the slice ordered by creation
time descending, and assembles the pagination metadata. -/
def getAllUsers (dbUsers : List UserRow) (params : PaginationParams) : PagedUsers :=
  let page := orDefault params.page 1
  let per_page := orDefault params.per_page 10
  let skip := (page - 1) * per_page
  let total := dbUsers.length
  let users := (((sortUsersByCreatedDesc dbUsers).drop skip).take per_page).map userSelect
  let total_pages := ceilDiv total per_page
  let has_next_page := decide (page < total_pages)
  let has_prev_page := decide (page > 1)
  ⟨users, ⟨total, page, per_page, total_pages, has_next_page, has_prev_page⟩⟩

/-- Permission fields selected by the roles service include clause. -/
structure PermView where
  id : String
  name : String
  description : Option String
  deriving DecidableEq, Repr

/-- Projection for the permission `select` in the roles service. -/
def permSelect (p : PermRec) : PermView := ⟨p.id, p.name, p.description⟩

/-- The permissions of a role as resolved by the roles service include
(`role_permissions` junction rows joined to their permission). -/
def rolePermissionViews (db : Db) (rid : String) : List PermView :=
  ((db.rolePermissions.filter (fun rp => rp.1 == rid)).filterMap
    (fun rp => db.permissions.find? (fun p => p.id == rp.2))).map permSelect

/-- The `_count.user_roles` aggregate of the roles service. -/
def roleUsersCount (db : Db) (rid : String) : Nat :=
  (db.userRoles.filter (fun ur => ur.2 == rid)).length

/-- The role shape returned by the roles service (`getAllRoles` map /
`getRoleById`). -/
structure RoleView where
  id : String
  name : String
  description : Option String
  permissions : List PermView
  users_count : Nat
  created_at : Int
  updated_at : Int
  deriving DecidableEq, Repr

/-- Assembles the roles service response row for a role. -/
def roleToView (db : Db) (role : RoleRec) : RoleView :=
  ⟨role.id, role.name, role.description, rolePermissionViews db role.id,
    roleUsersCount db role.id, role.created_at, role.updated_at⟩

/-- The prisma `orderBy: { created_at: "desc" }` on the roles table. -/
def sortRolesByCreatedDesc (rows : List RoleRec) : List RoleRec :=
  rows.mergeSort (fun a b => decide (b.created_at ≤ a.created_at))

/-- Result shape of `getAllRoles`. -/
structure PagedRoles where
  data : List RoleView
  meta : PaginationMeta
  deriving DecidableEq, Repr

/-- Embedding of `getAllRoles` from `modules/roles/roles.service.ts`: same
defaulting, skip computation, creation-time-descending slice and metadata as
`getAllUsers`, with each role mapped to its response shape. -/
def getAllRoles (db : Db) (params : PaginationParams) : PagedRoles :=
  let page := orDefault params.page 1
  let per_page := orDefault params.per_page 10
  let skip := (page - 1) * per_page
  let total := db.roles.length
  let roles := ((sortRolesByCreatedDesc db.roles).drop skip).take per_page
  let total_pages := ceilDiv total per_page
  ⟨roles.map (roleToView db),
    ⟨total, page, per_page, total_pages, decide (page < total_pages), decide (page > 1)⟩⟩

/-- One issue of a zod `safeParse` failure: a field path (already joined with
dots, as the validator does) and a message. -/
structure ZodIssue where
  path : String
  message : String
  deriving DecidableEq, Repr

/-- An issue as collected by the validator: the section it came from (the
code's `where` field), the field path and the message. -/
structure LocatedIssue where
  whereSection : String
  path : String
  message : String
  deriving DecidableEq, Repr

variable {V : Type}

/-- The validation bundle of a route (`ZodValidation`): an optional schema
per request section. A zod schema is modelled as a function from the section
value to either the parsed/coerced value or a list of issues (the observable
behaviour of `safeParse`). -/
structure ZodValidation (V : Type) where
  body : Option (V → Except (List ZodIssue) V) := none
  query : Option (V → Except (List ZodIssue) V) := none
  params : Option (V → Except (List ZodIssue) V) := none
  headers : Option (V → Except (List ZodIssue) V) := none

/-- The four sections of an express request the validator looks at. -/
structure RequestData (V : Type) where
  params : V
  query : V
  body : V
  headers : V
  deriving DecidableEq, Repr

/-- The `req.validated` record built by the validator on success. -/
structure ValidatedData (V : Type) where
  body : Option V
  query : Option V
  params : Option V
  headers : Option V
  deriving DecidableEq, Repr

/-- Result of the validator middleware: a 422 response listing the collected
issues, or control passed to the next handler with the validated values.
Both constructors carry the final request state, since the code mutates
`req.body` in place. -/
inductive ZodResult (V : Type) where
  | unprocessable (status : Nat) (message : String) (errors : List LocatedIssue)
      (req : RequestData V) : ZodResult V
  | next (req : RequestData V) (validated : ValidatedData V) : ZodResult V
  deriving DecidableEq, Repr

/-- The inner `run` helper of `zodValidator`: absent schema does nothing; a
failing parse contributes its issues tagged with the section name; a
successful parse contributes the parsed value. -/
def runSection (schema : Option (V → Except (List ZodIssue) V))
    (whereName : String) (value : V) : List LocatedIssue × Option V :=
  match schema with
  | none => ([], none)
  | some s =>
    match s value with
    | .error es => (es.map (fun i => ⟨whereName, i.path, i.message⟩), none)
    | .ok data => ([], some data)

/-- Embedding of `zodValidator` from the routing module (hosted in
`modules/health/health.route.ts`): runs the params, query, body and headers
schemas in that order, each against the original request values, collecting
all issues; only a successful body parse overwrites `req.body`; any issue
yields a 422 "Validation error" response listing every issue, otherwise the
validated values are attached and control passes on. -/
def zodValidator (validation : ZodValidation V) (req : RequestData V) : ZodResult V :=
  let rp := runSection validation.params "params" req.params
  let rq := runSection validation.query "query" req.query
  let rb := runSection validation.body "body" req.body
  let rh := runSection validation.headers "headers" req.headers
  let issues := rp.1 ++ rq.1 ++ rb.1 ++ rh.1
  let req1 := match rb.2 with
    | some d => { req with body := d }
    | none => req
  if issues.length > 0 then
    .unprocessable 422 "Validation error" issues req1
  else
    .next req1 ⟨rb.2, rq.2, rp.2, rh.2⟩

/-- The final request state after the validator ran, on either path. -/
def zodFinalReq : ZodResult V → RequestData V
  | .unprocessable _ _ _ req => req
  | .next req _ => req

/-- Embedding of `getRoleById` from `modules/roles/roles.service.ts`: looks
the role up by id, throws "Role not found" when absent, otherwise returns the
role with its permissions and user count. -/
def getRoleById (db : Db) (id : String) : Except String RoleView :=
  match db.roles.find? (fun r => r.id == id) with
  | none => .error "Role not found"
  | some role => .ok (roleToView db role)

/-- Embedding of `assignPermissions` from `modules/roles/roles.service.ts`:
role lookup ("Role not found" when absent), then `findMany where id in
permission_ids` compared by count against the list length ("One or more
permissions not found" on mismatch), then `deleteMany` of the role's junction
rows followed by `createMany` of one row per supplied id, returning the
updated database and the refreshed role view. -/
def assignPermissions (db : Db) (roleId : String) (permission_ids : List String) :
    Except String (Db × RoleView) :=
  match db.roles.find? (fun r => r.id == roleId) with
  | none => .error "Role not found"
  | some _ =>
    let permissions := db.permissions.filter (fun p => permission_ids.contains p.id)
    if permissions.length ≠ permission_ids.length then
      .error "One or more permissions not found"
    else
      let afterDelete := db.rolePermissions.filter (fun rp => !(rp.1 == roleId))
      let db2 : Db := { db with rolePermissions :=
        afterDelete ++ permission_ids.map (fun pid => (roleId, pid)) }
      (getRoleById db2 roleId).map (fun v => (db2, v))

/-- The token pair issued on successful authentication (`TokenPair` in
`lib/jwt.ts`). -/
structure TokenPair where
  access_token : String
  refresh_token : String
  token_type : String
  expires_in : String
  deriving DecidableEq, Repr

/-- The login request body (`LoginInput`). -/
structure LoginInput where
  email : String
  password : String
  deriving DecidableEq, Repr

/-- Embedding of the auth service `login` from
`modules/auth/auth.service.ts`: find the user by email, throw "Invalid
credentials" when absent; compare the submitted password against the stored
hash (bcrypt.compare, modelled by the abstract `compare`), throw the same
"Invalid credentials" on mismatch; otherwise issue a token pair for
`{userId, email}` (generateTokenPair, modelled by the abstract `tokenGen`). -/
def loginService (compare : String → String → Bool)
    (tokenGen : JWTPayload → TokenPair) (users : List UserRow)
    (data : LoginInput) : Except String TokenPair :=
  match users.find? (fun u => u.email == data.email) with
  | none => .error "Invalid credentials"
  | some user =>
    if !(compare data.password user.password) then .error "Invalid credentials"
    else .ok (tokenGen ⟨user.id, user.email⟩)

/-- The JSON envelope plus HTTP status produced by the auth controller. -/
structure ApiResponse where
  status : Nat
  success : Bool
  message : String
  data : Option TokenPair
  deriving DecidableEq, Repr

/-- Embedding of the `login` controller from
`modules/auth/auth.controller.ts`: 200 with the tokens on success; on a
thrown error, maps the message "Invalid credentials" to 401 and anything else
to 500, always in the `{success: false, message, data: null}` envelope. -/
def loginController (compare : String → String → Bool)
    (tokenGen : JWTPayload → TokenPair) (users : List UserRow)
    (data : LoginInput) : ApiResponse :=
  match loginService compare tokenGen users data with
  | .ok tokens => ⟨OK, true, "Login successful", some tokens⟩
  | .error message =>
    let statusCode :=
      if message == "Invalid credentials" then UNAUTHORIZED
      else INTERNAL_SERVER_ERROR
    ⟨statusCode, false, message, none⟩

/-- Options of `createRateLimiter` (`RateLimitOptions` merged over the
defaults). The key generator is not modelled: the step function below is the
behaviour of the middleware for one fixed key. -/
structure RLOptions where
  windowMs : Int
  max : Nat
  message : String
  skipSuccessfulRequests : Bool := false
  skipFailedRequests : Bool := false
  deriving Repr

/-- The redis-backed per-key state: the scores of the sorted-set members
recorded for the key (each a request timestamp in ms) and the key's absolute
expiry time in ms, so that `pTTL` at time `t` is `expireAt - t`. -/
structure RLState where
  entries : List Int
  expireAt : Int
  deriving DecidableEq, Repr

/-- Outcome of the rate limiter on one request: `next` with the informational
headers that were set (empty when the catch-block fail-open path ran), or a
429 rejection with its headers, message and `retryAfter` body field. -/
inductive RLOutcome where
  | next (headers : List (String × String)) : RLOutcome
  | reject (status : Nat) (headers : List (String × String)) (message : String)
      (retryAfter : Nat) : RLOutcome
  deriving DecidableEq, Repr

/-- Redis `ZREMRANGEBYSCORE key lo hi`: removes the members whose score lies
in the inclusive range. -/
def zRemRangeByScore (entries : List Int) (lo hi : Int) : List Int :=
  entries.filter (fun s => decide (¬ (lo ≤ s ∧ s ≤ hi)))

/-- Embedding of one request through the middleware returned by
`createRateLimiter` in `middleware/rate-limit.ts`, for one key:
`zRemRangeByScore(key, 0, now - windowMs)`, `zCard`, and either the 429
rejection (with `pTTL`-derived reset time and the limit/remaining/reset and
`Retry-After` headers) or recording the timestamp via `zAdd`, refreshing the
expiry to `ceil(windowMs/1000)` seconds and proceeding with informational
headers. `redisFails` models any of the redis calls throwing, which lands in
the catch block: the error is logged and the request proceeds. -/
def rateLimiterStep (opts : RLOptions) (redisFails : Bool) (now : Int)
    (st : RLState) : RLState × RLOutcome :=
  if redisFails then (st, .next [])
  else
    let windowStart := now - opts.windowMs
    let entries := zRemRangeByScore st.entries 0 windowStart
    let requestCount := entries.length
    if requestCount ≥ opts.max then
      let ttl := st.expireAt - now
      let resetTime :=
        if ttl > 0 then ceilDiv ttl.toNat 1000 else ceilDiv opts.windowMs.toNat 1000
      let headers := [("X-RateLimit-Limit", toString opts.max),
                      ("X-RateLimit-Remaining", "0"),
                      ("X-RateLimit-Reset", toString resetTime),
                      ("Retry-After", toString resetTime)]
      ({ st with entries := entries }, .reject 429 headers opts.message resetTime)
    else
      let entries2 := entries ++ [now]
      let expireSecs := ceilDiv opts.windowMs.toNat 1000
      let headers := [("X-RateLimit-Limit", toString opts.max),
                      ("X-RateLimit-Remaining", toString (opts.max - requestCount - 1)),
                      ("X-RateLimit-Reset", toString expireSecs)]
      (⟨entries2, now + (expireSecs : Int) * 1000⟩, .next headers)

/-- A sequence of requests on the same key at the given times. -/
def rateLimiterRun (opts : RLOptions) (redisFails : Bool) (times : List Int)
    (st : RLState) : RLState × List RLOutcome :=
  match times with
  | [] => (st, [])
  | t :: ts =>
    let r := rateLimiterStep opts redisFails t st
    let rest := rateLimiterRun opts redisFails ts r.1
    (rest.1, r.2 :: rest.2)

/-- Whether the middleware passed the request on (`next()` was called). -/
def rlIsNext : RLOutcome → Bool
  | .next _ => true
  | .reject _ _ _ _ => false

/-- The `defaultOptions` of `createRateLimiter`: 100 requests per minute. -/
def defaultOptions : RLOptions :=
  ⟨60 * 1000, 100, "Too many requests, please try again later.", false, false⟩

/-- Options of the exported `strictRateLimiter`: 10 requests per minute. -/
def strictRateLimiterOptions : RLOptions :=
  ⟨60 * 1000, 10, "Too many requests. Please slow down.", false, false⟩

/-- Options of the exported `authRateLimiter`: 5 requests per 15 minutes,
keyed by IP plus submitted identifier. -/
def authRateLimiterOptions : RLOptions :=
  ⟨15 * 60 * 1000, 5, "Too many authentication attempts. Please try again later.",
    false, false⟩

/-- A concrete library-verify behaviour for evaluating the token theorems:
exactly one token verifies against the access secret, everything else fails
as expired. -/
def c3verify : String → String → Except JwtError JWTPayload := fun token secret =>
  if token = "good" ∧ secret = "s1" then .ok ⟨"u1", "u1@mail.test"⟩
  else .error .expired

/-- Concrete RBAC snapshot realizing the spec's example: role `r1` grants
only permission `a`, role `r2` grants `a` and `b`; user `u1` holds `r1`,
user `u2` holds `r2`. -/
def c2db : Db :=
  ⟨[⟨"r1", "reader", none, 0, 0⟩, ⟨"r2", "editor", none, 0, 0⟩],
   [⟨"pa", "a", none⟩, ⟨"pb", "b", none⟩],
   [("u1", "r1"), ("u2", "r2")],
   [("r1", "pa"), ("r2", "pa"), ("r2", "pb")]⟩

/-- Concrete snapshot for the permission-assignment theorems: one role,
two permissions, no junction rows yet. -/
def c6db : Db :=
  ⟨[⟨"r1", "admin", none, 0, 0⟩],
   [⟨"p1", "users.read", none⟩, ⟨"p2", "users.write", none⟩],
   [], []⟩

/-- Concrete user table for the login theorems: a single registered user. -/
def c8users : List UserRow :=
  [⟨"u1", "Ann", "ann@mail.test", "hashed", none, 0, 0⟩]

/-- Concrete validation bundle over `Nat` request sections: the params schema
rejects everything, the body schema coerces by multiplying by ten, the
headers schema rejects everything, no query schema. -/
def c5validation : ZodValidation Nat :=
  { body := some (fun v => .ok (v * 10)),
    query := none,
    params := some (fun _ => .error [⟨"id", "Required"⟩]),
    headers := some (fun _ => .error [⟨"authorization", "Invalid"⟩]) }

/-- Concrete request for the validator theorems. -/
def c5req : RequestData Nat := ⟨1, 2, 5, 4⟩

/-- Small limiter options for evaluating the rate-limiter theorem: window of
one second, two requests allowed. -/
def c7opts : RLOptions := ⟨1000, 2, "slow down", false, false⟩

/-- The issues the validator accumulates: the four sections are run
independently, in the source's order, and all their issues are concatenated
(the projection of `zodValidator`'s `issues` variable). -/
def collectedIssues {V : Type} (validation : ZodValidation V)
    (req : RequestData V) : List LocatedIssue :=
  (runSection validation.params "params" req.params).1 ++
  (runSection validation.query "query" req.query).1 ++
  (runSection validation.body "body" req.body).1 ++
  (runSection validation.headers "headers" req.headers).1

/-- The request after the validator's only mutation: `req.body` is replaced
when the body schema parsed successfully, nothing else changes (the
projection of `zodValidator`'s `req1` variable). -/
def zodReq1 {V : Type} (validation : ZodValidation V)
    (req : RequestData V) : RequestData V :=
  match (runSection validation.body "body" req.body).2 with
  | some d => { req with body := d }
  | none => req

/-- Spec-side pagination metadata invariant: `total_pages` is the ceiling of
`total / per_page`, `has_next_page` holds iff the page is before the last,
`has_prev_page` holds iff the page is after the first. -/
def PaginationMetaOk (m : PaginationMeta) : Prop :=
  m.total_pages = m.total ⌈/⌉ m.per_page ∧
  (m.has_next_page = true ↔ m.page < m.total_pages) ∧
  (m.has_prev_page = true ↔ 1 < m.page)

/-- The database after `assignPermissions` rewrote a role's junction rows:
the role's rows are deleted and one row per supplied id is inserted (the
`deleteMany`/`createMany` pair of the service). -/
def replaceRolePermissions (db : Db) (roleId : String) (ids : List String) : Db :=
  { db with rolePermissions :=
      db.rolePermissions.filter (fun rp => !(rp.1 == roleId)) ++
        ids.map (fun pid => (roleId, pid)) }

/-- The snapshot `c6db` after `["p1"]` was assigned to role `r1`. -/
def c6dbAfterP1 : Db :=
  ⟨[⟨"r1", "admin", none, 0, 0⟩],
   [⟨"p1", "users.read", none⟩, ⟨"p2", "users.write", none⟩],
   [], [("r1", "p1")]⟩

/-- The snapshot `c6db` after `["p2"]` was assigned to role `r1`. -/
def c6dbAfterP2 : Db :=
  ⟨[⟨"r1", "admin", none, 0, 0⟩],
   [⟨"p1", "users.read", none⟩, ⟨"p2", "users.write", none⟩],
   [], [("r1", "p2")]⟩

/-- C1 (amended): on an infrastructure error (the backing cache/database
operation throws) the rate limiter fails open — the request proceeds to the
next handler with no rate-limit headers — but `hasRole` and `hasPermission`
fail closed: for every authenticated request they respond 500 internal error
instead of proceeding. On policy violations all three fail closed. -/
theorem c1_infra_error_fail_modes (opts : RLOptions) (now : Int) (st : RLState)
    (db : Db) (uid : String) (roles perms : List String) :
    (rateLimiterStep opts true now st).2 = .next [] ∧
    hasRole true db (some uid) roles =
      .respond INTERNAL_SERVER_ERROR "Failed to check user role" ∧
    hasPermission true db (some uid) perms =
      .respond INTERNAL_SERVER_ERROR "Failed to check user permissions" :=
  ⟨rfl, rfl, rfl⟩

/-- C1 counterexample: the claim says that whenever the database backing an
authorization check is unreachable the middleware lets the request proceed;
but `hasPermission` on a concrete authenticated request whose database query
throws responds 500 and does not proceed. -/
theorem c1_counterexample :
    hasPermission true ⟨[], [], [], []⟩ (some "u1") ["users.read"] =
      .respond INTERNAL_SERVER_ERROR "Failed to check user permissions" ∧
    hasPermission true ⟨[], [], [], []⟩ (some "u1") ["users.read"] ≠
      MwOutcome.next := by
  exact ⟨rfl, by decide⟩

/-- C3: for every input token, `verifyAccessToken` and `verifyRefreshToken`
return the decoded payload exactly when the library verification succeeds
against the respective secret, and return null (`none`) on any verification
failure — expired, malformed or wrong signature — rather than propagating the
exception. -/
theorem c3_verify_returns_null_on_failure
    (jwtVerify : String → String → Except JwtError JWTPayload)
    (env : EnvCfg) (token : String) :
    (∀ p, jwtVerify token env.JWT_SECRET = .ok p →
      verifyAccessToken jwtVerify env token = some p) ∧
    (∀ e, jwtVerify token env.JWT_SECRET = .error e →
      verifyAccessToken jwtVerify env token = none) ∧
    (∀ p, jwtVerify token env.JWT_REFRESH_SECRET = .ok p →
      verifyRefreshToken jwtVerify env token = some p) ∧
    (∀ e, jwtVerify token env.JWT_REFRESH_SECRET = .error e →
      verifyRefreshToken jwtVerify env token = none) := by
  refine ⟨?_, ?_, ?_, ?_⟩ <;> intro x h <;>
    simp [verifyAccessToken, verifyRefreshToken, h]

/-- C3 witness: evaluated at a concrete verify behaviour, the good token
decodes and an expired one yields null. -/
theorem c3_witness :
    verifyAccessToken c3verify ⟨"s1", "s2"⟩ "good" = some ⟨"u1", "u1@mail.test"⟩ ∧
    verifyAccessToken c3verify ⟨"s1", "s2"⟩ "expired-tok" = none ∧
    verifyRefreshToken c3verify ⟨"s1", "s2"⟩ "good" = none :=
  ⟨(c3_verify_returns_null_on_failure c3verify ⟨"s1", "s2"⟩ "good").1
      ⟨"u1", "u1@mail.test"⟩ rfl,
   (c3_verify_returns_null_on_failure c3verify ⟨"s1", "s2"⟩ "expired-tok").2.1
      .expired rfl,
   (c3_verify_returns_null_on_failure c3verify ⟨"s1", "s2"⟩ "good").2.2.2
      .expired rfl⟩

/-- C9: empty-list boundary of the authorization middlewares — for every
authenticated user, `hasPermission []` passes the request on (the universal
check over an empty list is vacuously true) while `hasRole []` rejects every
request with 403 forbidden (the existential check over an empty list is
false). -/
theorem c9_empty_list_boundary (db : Db) (uid : String) :
    hasPermission false db (some uid) [] = .next ∧
    hasRole false db (some uid) [] =
      .respond FORBIDDEN "Access denied. Required role(s): " := by
  constructor
  · simp [hasPermission]
  · simp [hasRole, String.intercalate]

/-- C8: login with a nonexistent email and login with an existing email but
failing password comparison produce identical observable responses — the
generic "Invalid credentials" message with HTTP 401 in the same envelope —
giving callers no signal to distinguish the two causes. -/
theorem c8_login_indistinguishable (compare : String → String → Bool)
    (tokenGen : JWTPayload → TokenPair) (users : List UserRow)
    (d1 d2 : LoginInput)
    (h1 : users.find? (fun u => u.email == d1.email) = none)
    (h2 : ∃ u, users.find? (fun u => u.email == d2.email) = some u ∧
      compare d2.password u.password = false) :
    loginController compare tokenGen users d1 =
      loginController compare tokenGen users d2 ∧
    loginController compare tokenGen users d1 =
      ⟨UNAUTHORIZED, false, "Invalid credentials", none⟩ := by
  obtain ⟨u, hu, hc⟩ := h2
  simp [loginController, loginService, h1, hu, hc]

/-- C8 witness: with one registered user and a comparator that rejects the
submitted password, the unknown-email login and the wrong-password login get
the same 401 "Invalid credentials" response. -/
theorem c8_witness :
    loginController (fun _ _ => false) (fun _ => ⟨"a", "r", "Bearer", "7d"⟩)
        c8users ⟨"ghost@mail.test", "pw"⟩ =
      loginController (fun _ _ => false) (fun _ => ⟨"a", "r", "Bearer", "7d"⟩)
        c8users ⟨"ann@mail.test", "wrong"⟩ ∧
    loginController (fun _ _ => false) (fun _ => ⟨"a", "r", "Bearer", "7d"⟩)
        c8users ⟨"ghost@mail.test", "pw"⟩ =
      ⟨UNAUTHORIZED, false, "Invalid credentials", none⟩ :=
  c8_login_indistinguishable (fun _ _ => false) (fun _ => ⟨"a", "r", "Bearer", "7d"⟩)
    c8users ⟨"ghost@mail.test", "pw"⟩ ⟨"ann@mail.test", "wrong"⟩
    (by decide) ⟨⟨"u1", "Ann", "ann@mail.test", "hashed", none, 0, 0⟩, by decide, rfl⟩

/-- Under the primary-key invariant of the permission table, `find?` by id
finds exactly the member row with that id. -/
theorem find_permission_eq_some_iff (db : Db) (pid : String) (perm : PermRec)
    (hpk : (db.permissions.map (fun q => q.id)).Nodup) :
    db.permissions.find? (fun q => q.id == pid) = some perm ↔
      perm ∈ db.permissions ∧ perm.id = pid := by
  constructor
  · intro h
    exact ⟨List.mem_of_find?_eq_some h, by simpa using List.find?_some h⟩
  · rintro ⟨hm, hid⟩
    have hs : (db.permissions.find? (fun q => q.id == pid)).isSome := by
      rw [List.find?_isSome]
      exact ⟨perm, hm, by simp [hid]⟩
    obtain ⟨q, hq⟩ := Option.isSome_iff_exists.mp hs
    have hqm := List.mem_of_find?_eq_some hq
    have hqid : q.id = pid := by simpa using List.find?_some hq
    have hqe : q = perm := List.inj_on_of_nodup_map hpk hqm hm (by rw [hqid, hid])
    rw [hq, hqe]

/-- The permission-name list computed by `hasPermission` contains a name
exactly when the user holds it through some role (under the permission
table's primary-key invariant). -/
theorem mem_userPermissionNames_iff (db : Db) (uid p : String)
    (hpk : (db.permissions.map (fun q => q.id)).Nodup) :
    p ∈ userPermissionNames db uid ↔ HoldsPermission db uid p := by
  unfold userPermissionNames HoldsPermission
  constructor
  · intro hmem
    rw [List.mem_flatten] at hmem
    obtain ⟨l, hl, hpl⟩ := hmem
    rw [List.mem_map] at hl
    obtain ⟨ur, hurf, rfl⟩ := hl
    rw [List.mem_filter] at hurf
    obtain ⟨hurm, hur1⟩ := hurf
    rw [List.mem_filterMap] at hpl
    obtain ⟨rp, hrpf, hrp⟩ := hpl
    rw [List.mem_filter] at hrpf
    obtain ⟨hrpm, hrp1⟩ := hrpf
    rw [Option.map_eq_some'] at hrp
    obtain ⟨perm, hfind, hname⟩ := hrp
    obtain ⟨hpm, hpid⟩ := (find_permission_eq_some_iff db rp.2 perm hpk).mp hfind
    exact ⟨ur, hurm, by simpa using hur1, rp, hrpm, by simpa using hrp1,
      perm, hpm, hpid, hname⟩
  · rintro ⟨ur, hurm, hur1, rp, hrpm, hrp1, perm, hpm, hpid, hname⟩
    rw [List.mem_flatten]
    refine ⟨_, List.mem_map.mpr ⟨ur, List.mem_filter.mpr ⟨hurm, by simp [hur1]⟩, rfl⟩, ?_⟩
    rw [List.mem_filterMap]
    refine ⟨rp, List.mem_filter.mpr ⟨hrpm, by simp [hrp1]⟩, ?_⟩
    rw [Option.map_eq_some']
    exact ⟨perm, (find_permission_eq_some_iff db rp.2 perm hpk).mpr ⟨hpm, hpid⟩, hname⟩

/-- C2: `hasPermission` implements AND semantics over the union of the
user's permission names across all roles — for an authenticated user it
passes the request on iff every requested name is held through some role,
any partial match yields 403 forbidden, and a request without identity
yields 401 unauthenticated. -/
theorem c2_hasPermission_and_semantics (db : Db) (uid : String)
    (permissions : List String)
    (hpk : (db.permissions.map (fun q => q.id)).Nodup) :
    (hasPermission false db (some uid) permissions = .next ↔
      ∀ p ∈ permissions, HoldsPermission db uid p) ∧
    (¬ (∀ p ∈ permissions, HoldsPermission db uid p) →
      hasPermission false db (some uid) permissions =
        .respond FORBIDDEN ("Access denied. Required permission(s): " ++
          String.intercalate ", " permissions)) ∧
    hasPermission false db none permissions =
      .respond UNAUTHORIZED "User not authenticated" := by
  have hchar :
      (permissions.all (fun q => (userPermissionNames db uid).contains q) = true) ↔
        ∀ p ∈ permissions, HoldsPermission db uid p := by
    simp only [List.all_eq_true]
    constructor
    · intro h p hp
      exact (mem_userPermissionNames_iff db uid p hpk).mp (by simpa using h p hp)
    · intro h p hp
      simpa using (mem_userPermissionNames_iff db uid p hpk).mpr (h p hp)
  have hunfold : hasPermission false db (some uid) permissions =
      (if permissions.all (fun q => (userPermissionNames db uid).contains q) = true
       then MwOutcome.next
       else MwOutcome.respond FORBIDDEN ("Access denied. Required permission(s): " ++
         String.intercalate ", " permissions)) := rfl
  refine ⟨?_, ?_, rfl⟩
  · rw [hunfold]
    by_cases hall : ∀ p ∈ permissions, HoldsPermission db uid p
    · rw [if_pos (hchar.mpr hall)]
      exact iff_of_true rfl hall
    · rw [if_neg (fun h => hall (hchar.mp h))]
      exact iff_of_false (by simp) hall
  · intro hnall
    rw [hunfold, if_neg (fun h => hnall (hchar.mp h))]

/-- C2 witness: with roles granting `{a}` to `u1` and `{a, b}` to `u2`,
requesting permissions `["a", "b"]` rejects `u1` with 403 and admits `u2`. -/
theorem c2_witness :
    hasPermission false c2db (some "u1") ["a", "b"] =
      .respond FORBIDDEN "Access denied. Required permission(s): a, b" ∧
    hasPermission false c2db (some "u2") ["a", "b"] = .next := by
  constructor
  · have h := (c2_hasPermission_and_semantics c2db "u1" ["a", "b"] (by decide)).2.1
      (by decide)
    rw [show ("Access denied. Required permission(s): " ++
      String.intercalate ", " ["a", "b"]) =
        "Access denied. Required permission(s): a, b" from rfl] at h
    exact h
  · exact (c2_hasPermission_and_semantics c2db "u2" ["a", "b"] (by decide)).1.mpr
      (by decide)

/-- The validator is exactly: 422 with all collected issues when any
section produced one, else pass on with the validated values; in both cases
the request carries the body overwrite. -/
theorem zodValidator_eq {V : Type} (validation : ZodValidation V)
    (req : RequestData V) :
    zodValidator validation req =
      (if 0 < (collectedIssues validation req).length
       then .unprocessable 422 "Validation error" (collectedIssues validation req)
              (zodReq1 validation req)
       else .next (zodReq1 validation req)
              ⟨(runSection validation.body "body" req.body).2,
               (runSection validation.query "query" req.query).2,
               (runSection validation.params "params" req.params).2,
               (runSection validation.headers "headers" req.headers).2⟩) := rfl

/-- C5: the validator runs the body, query, params and headers schemas
independently, collecting every issue from every section as
section/path/message tuples; if any issue exists it responds with the
structured 422 "Validation error" listing all of them and does not pass
control on, otherwise it passes control on. -/
theorem c5_validator_collects_all_issues {V : Type} (validation : ZodValidation V)
    (req : RequestData V) :
    (collectedIssues validation req ≠ [] → ∃ req1,
      zodValidator validation req =
        .unprocessable 422 "Validation error" (collectedIssues validation req) req1) ∧
    (collectedIssues validation req = [] → ∃ req1 vd,
      zodValidator validation req = .next req1 vd) := by
  constructor
  · intro hne
    rw [zodValidator_eq, if_pos (List.length_pos.mpr hne)]
    exact ⟨_, rfl⟩
  · intro he
    rw [zodValidator_eq, if_neg (by simp [he])]
    exact ⟨_, _, rfl⟩

/-- C5 witness: a failing params schema and a failing headers schema (with a
passing body schema in between) produce one 422 response listing both
issues. -/
theorem c5_witness :
    collectedIssues c5validation c5req ≠ [] ∧
    ∃ req1, zodValidator c5validation c5req =
      .unprocessable 422 "Validation error"
        [⟨"params", "id", "Required"⟩, ⟨"headers", "authorization", "Invalid"⟩]
        req1 :=
  ⟨by decide, (c5_validator_collects_all_issues c5validation c5req).1 (by decide)⟩

/-- C10: the validator's body overwrite is not atomic with overall success —
whenever the body schema parses, the final request's body is the parsed
value even when another section failed and a 422 was sent — and the params,
query and headers of the request are never mutated. -/
theorem c10_body_overwrite_frame {V : Type} (validation : ZodValidation V)
    (req : RequestData V) :
    ((zodFinalReq (zodValidator validation req)).params = req.params ∧
     (zodFinalReq (zodValidator validation req)).query = req.query ∧
     (zodFinalReq (zodValidator validation req)).headers = req.headers) ∧
    (∀ s d, validation.body = some s → s req.body = .ok d →
      (zodFinalReq (zodValidator validation req)).body = d) ∧
    (∀ s es, validation.body = some s → s req.body = .error es →
      (zodFinalReq (zodValidator validation req)).body = req.body) ∧
    (validation.body = none →
      (zodFinalReq (zodValidator validation req)).body = req.body) := by
  have hfin : zodFinalReq (zodValidator validation req) = zodReq1 validation req := by
    rw [zodValidator_eq]
    by_cases h : 0 < (collectedIssues validation req).length
    · rw [if_pos h]; rfl
    · rw [if_neg h]; rfl
  refine ⟨?_, fun s d hb hsd => ?_, fun s es hb hse => ?_, fun hb => ?_⟩
  · rw [hfin]
    unfold zodReq1
    cases hr : (runSection validation.body "body" req.body).2
    · exact ⟨rfl, rfl, rfl⟩
    · exact ⟨rfl, rfl, rfl⟩
  · rw [hfin]
    unfold zodReq1
    simp [runSection, hb, hsd]
  · rw [hfin]
    unfold zodReq1
    simp [runSection, hb, hse]
  · rw [hfin]
    unfold zodReq1
    simp [runSection, hb]

/-- C10 witness: with a failing params schema, the 422 path is taken and the
final request body is still the parsed body (5 coerced to 50), while params,
query and headers are untouched. -/
theorem c10_witness :
    (zodFinalReq (zodValidator c5validation c5req)).body = 50 ∧
    zodValidator c5validation c5req =
      .unprocessable 422 "Validation error"
        [⟨"params", "id", "Required"⟩, ⟨"headers", "authorization", "Invalid"⟩]
        ⟨1, 2, 50, 4⟩ ∧
    (zodFinalReq (zodValidator c5validation c5req)).params = c5req.params :=
  ⟨(c10_body_overwrite_frame c5validation c5req).2.1 (fun v => .ok (v * 10)) 50
      rfl rfl,
   by decide,
   (c10_body_overwrite_frame c5validation c5req).1.1⟩

/-- The users sort is a creation-time-descending ordering of the table. -/
theorem sortUsers_sorted (dbUsers : List UserRow) :
    (sortUsersByCreatedDesc dbUsers).Perm dbUsers ∧
    (sortUsersByCreatedDesc dbUsers).Sorted
      (fun a b => b.created_at ≤ a.created_at) := by
  refine ⟨List.mergeSort_perm dbUsers _, ?_⟩
  have h := @List.sorted_mergeSort UserRow
    (fun a b => decide (b.created_at ≤ a.created_at))
    (fun a b c h1 h2 => by
      simp only [decide_eq_true_eq] at h1 h2 ⊢
      exact le_trans h2 h1)
    (fun a b => by
      simp only [Bool.or_eq_true, decide_eq_true_eq]
      exact le_total b.created_at a.created_at)
    dbUsers
  exact h.imp (fun hx => by simpa using hx)

/-- The roles sort is a creation-time-descending ordering of the table. -/
theorem sortRoles_sorted (roles : List RoleRec) :
    (sortRolesByCreatedDesc roles).Perm roles ∧
    (sortRolesByCreatedDesc roles).Sorted
      (fun a b => b.created_at ≤ a.created_at) := by
  refine ⟨List.mergeSort_perm roles _, ?_⟩
  have h := @List.sorted_mergeSort RoleRec
    (fun a b => decide (b.created_at ≤ a.created_at))
    (fun a b c h1 h2 => by
      simp only [decide_eq_true_eq] at h1 h2 ⊢
      exact le_trans h2 h1)
    (fun a b => by
      simp only [Bool.or_eq_true, decide_eq_true_eq]
      exact le_total b.created_at a.created_at)
    roles
  exact h.imp (fun hx => by simpa using hx)

/-- C4: for every paginated list operation (users and roles) the returned
metadata satisfies `total_pages = ceil(total / per_page)`, `has_next_page ↔
page < total_pages` and `has_prev_page ↔ page > 1`, and the returned rows
are the slice at offset `skip = (page-1)*per_page` of the table in
creation-time-descending order. -/
theorem c4_pagination_invariants (dbUsers : List UserRow) (db : Db)
    (params : PaginationParams) :
    PaginationMetaOk (getAllUsers dbUsers params).meta ∧
    PaginationMetaOk (getAllRoles db params).meta ∧
    (∃ sorted : List UserRow, sorted.Perm dbUsers ∧
      sorted.Sorted (fun a b => b.created_at ≤ a.created_at) ∧
      (getAllUsers dbUsers params).data =
        ((sorted.drop ((orDefault params.page 1 - 1) * orDefault params.per_page 10)).take
          (orDefault params.per_page 10)).map userSelect) ∧
    (∃ sorted : List RoleRec, sorted.Perm db.roles ∧
      sorted.Sorted (fun a b => b.created_at ≤ a.created_at) ∧
      (getAllRoles db params).data =
        ((sorted.drop ((orDefault params.page 1 - 1) * orDefault params.per_page 10)).take
          (orDefault params.per_page 10)).map (roleToView db)) := by
  refine ⟨?_, ?_, ?_, ?_⟩
  · refine ⟨?_, ?_, ?_⟩ <;>
      simp [getAllUsers, PaginationMetaOk, ceilDiv, Nat.ceilDiv_eq_add_pred_div]
  · refine ⟨?_, ?_, ?_⟩ <;>
      simp [getAllRoles, PaginationMetaOk, ceilDiv, Nat.ceilDiv_eq_add_pred_div]
  · obtain ⟨hp, hs⟩ := sortUsers_sorted dbUsers
    exact ⟨sortUsersByCreatedDesc dbUsers, hp, hs, rfl⟩
  · obtain ⟨hp, hs⟩ := sortRoles_sorted db.roles
    exact ⟨sortRolesByCreatedDesc db.roles, hp, hs, rfl⟩

/-- When every supplied id (duplicate-free) names an existing permission,
the `findMany where id in ids` result has exactly one row per id. -/
theorem filter_by_ids_length_eq (perms : List PermRec) (ids : List String)
    (hids : ids.Nodup) (hpk : (perms.map (fun q => q.id)).Nodup)
    (hall : ∀ pid ∈ ids, ∃ perm ∈ perms, perm.id = pid) :
    (perms.filter (fun p => ids.contains p.id)).length = ids.length := by
  have hFId : ((perms.filter (fun p => ids.contains p.id)).map (fun q => q.id)).Nodup :=
    List.Nodup.sublist (List.Sublist.map _ (List.filter_sublist perms)) hpk
  have hsub1 : ((perms.filter (fun p => ids.contains p.id)).map (fun q => q.id)) ⊆ ids := by
    intro x hx
    rw [List.mem_map] at hx
    obtain ⟨p, hp, rfl⟩ := hx
    rw [List.mem_filter] at hp
    simpa using hp.2
  have hsub2 : ids ⊆ ((perms.filter (fun p => ids.contains p.id)).map (fun q => q.id)) := by
    intro pid hpid
    obtain ⟨perm, hperm, hid⟩ := hall pid hpid
    rw [List.mem_map]
    refine ⟨perm, ?_, hid⟩
    rw [List.mem_filter]
    refine ⟨hperm, ?_⟩
    rw [hid]
    simpa using hpid
  have h1 := (List.subperm_of_subset hFId hsub1).length_le
  have h2 := (List.subperm_of_subset hids hsub2).length_le
  have hlen := List.length_map (perms.filter (fun p => ids.contains p.id)) (fun q => q.id)
  omega

/-- When some supplied id names no permission row, the `findMany` result is
strictly shorter than the id list. -/
theorem filter_by_ids_length_lt (perms : List PermRec) (ids : List String)
    (hpk : (perms.map (fun q => q.id)).Nodup) (pid0 : String) (h0 : pid0 ∈ ids)
    (hmiss : ∀ perm ∈ perms, perm.id ≠ pid0) :
    (perms.filter (fun p => ids.contains p.id)).length < ids.length := by
  have hFId : ((perms.filter (fun p => ids.contains p.id)).map (fun q => q.id)).Nodup :=
    List.Nodup.sublist (List.Sublist.map _ (List.filter_sublist perms)) hpk
  have hsub : ((perms.filter (fun p => ids.contains p.id)).map (fun q => q.id)) ⊆
      ids.erase pid0 := by
    intro x hx
    rw [List.mem_map] at hx
    obtain ⟨p, hp, rfl⟩ := hx
    rw [List.mem_filter] at hp
    have hxid : p.id ∈ ids := by simpa using hp.2
    exact (List.mem_erase_of_ne (hmiss p hp.1)).mpr hxid
  have h1 := (List.subperm_of_subset hFId hsub).length_le
  have h2 : (ids.erase pid0).length = ids.length - 1 := List.length_erase_of_mem h0
  have h3 : 0 < ids.length := List.length_pos.mpr (List.ne_nil_of_mem h0)
  have hlen := List.length_map (perms.filter (fun p => ids.contains p.id)) (fun q => q.id)
  omega

/-- Deleting a role's junction rows and inserting one per supplied id leaves
the role with exactly the supplied rows and every other role untouched. -/
theorem rolePermissions_after_replace (l : List (String × String)) (roleId : String)
    (ids : List String) :
    ((l.filter (fun rp => !(rp.1 == roleId))) ++
        ids.map (fun pid => (roleId, pid))).filter (fun rp => rp.1 == roleId) =
      ids.map (fun pid => (roleId, pid)) ∧
    ((l.filter (fun rp => !(rp.1 == roleId))) ++
        ids.map (fun pid => (roleId, pid))).filter (fun rp => !(rp.1 == roleId)) =
      l.filter (fun rp => !(rp.1 == roleId)) := by
  constructor <;>
    simp [List.filter_append, List.filter_filter, List.filter_map, Function.comp_def]

/-- C6 (amended): `assignPermissions` rejects when the role is missing or
when some supplied permission id names no existing permission; for a
duplicate-free id list whose ids all exist it replaces the role's entire
permission set with exactly the supplied set, leaving other roles' rows and
all other tables unchanged — the existence check compares row count with
list length, so duplicate ids are also rejected (see the counterexample).
In particular, after any successful `assignPermissions(role, [p2])` only
`p2` is associated with the role, whatever was assigned before. -/
theorem c6_assignPermissions_replaces (db : Db) (roleId : String)
    (ids : List String) (hids : ids.Nodup)
    (hpk : (db.permissions.map (fun q => q.id)).Nodup) :
    (db.roles.find? (fun r => r.id == roleId) = none →
      assignPermissions db roleId ids = .error "Role not found") ∧
    ((db.roles.find? (fun r => r.id == roleId)).isSome = true →
      (∃ pid ∈ ids, ∀ perm ∈ db.permissions, perm.id ≠ pid) →
      assignPermissions db roleId ids = .error "One or more permissions not found") ∧
    ((db.roles.find? (fun r => r.id == roleId)).isSome = true →
      (∀ pid ∈ ids, ∃ perm ∈ db.permissions, perm.id = pid) →
      ∃ db2 view, assignPermissions db roleId ids = .ok (db2, view) ∧
        db2.rolePermissions.filter (fun rp => rp.1 == roleId) =
          ids.map (fun pid => (roleId, pid)) ∧
        db2.rolePermissions.filter (fun rp => !(rp.1 == roleId)) =
          db.rolePermissions.filter (fun rp => !(rp.1 == roleId)) ∧
        db2.roles = db.roles ∧ db2.permissions = db.permissions ∧
        db2.userRoles = db.userRoles) ∧
    (∀ db1 db2 v2 p2, assignPermissions db1 roleId [p2] = .ok (db2, v2) →
      db2.rolePermissions.filter (fun rp => rp.1 == roleId) = [(roleId, p2)]) := by
  refine ⟨?_, ?_, ?_, ?_⟩
  · intro hnone
    simp only [assignPermissions, hnone]
  · rintro hsome ⟨pid0, h0, hmiss⟩
    obtain ⟨role, hrole⟩ := Option.isSome_iff_exists.mp hsome
    have hlt := filter_by_ids_length_lt db.permissions ids hpk pid0 h0 hmiss
    simp only [assignPermissions, hrole]
    rw [if_pos hlt.ne]
  · intro hsome hall
    obtain ⟨role, hrole⟩ := Option.isSome_iff_exists.mp hsome
    have heq := filter_by_ids_length_eq db.permissions ids hids hpk hall
    refine ⟨replaceRolePermissions db roleId ids,
      roleToView (replaceRolePermissions db roleId ids) role, ?_, ?_, ?_, rfl, rfl, rfl⟩
    · simp only [assignPermissions, hrole]
      rw [if_neg (by omega)]
      simp [getRoleById, hrole, replaceRolePermissions, Except.map]
    · exact (rolePermissions_after_replace db.rolePermissions roleId ids).1
    · exact (rolePermissions_after_replace db.rolePermissions roleId ids).2
  · intro db1 db2 v2 p2 h
    simp only [assignPermissions] at h
    split at h
    · exact absurd h (by simp)
    · split at h
      · exact absurd h (by simp)
      · simp only [getRoleById] at h
        split at h
        · exact absurd h (by simp [Except.map])
        · simp only [Except.map] at h
          rw [Except.ok.injEq, Prod.mk.injEq] at h
          obtain ⟨hdb, hv⟩ := h
          rw [← hdb]
          have hrep := (rolePermissions_after_replace db1.rolePermissions roleId [p2]).1
          simp only [List.map_cons, List.map_nil] at hrep
          exact hrep

/-- C6 counterexample: the claim says `assignPermissions` succeeds and
replaces whenever the role exists and every supplied permission id exists;
but for the duplicated list `["p1", "p1"]` — whose every element is the id of
an existing permission of an existing role — the service rejects, because the
`findMany` row count (1) differs from the list length (2). -/
theorem c6_counterexample :
    (∀ pid ∈ ["p1", "p1"], ∃ perm ∈ c6db.permissions, perm.id = pid) ∧
    (c6db.roles.find? (fun r => r.id == "r1")).isSome = true ∧
    assignPermissions c6db "r1" ["p1", "p1"] =
      .error "One or more permissions not found" :=
  ⟨by decide, by decide, rfl⟩

/-- C6 witness: assigning the duplicate-free list `["p2"]` to role `r1`
succeeds and leaves exactly `p2` associated, regardless of what was assigned
before (the last conjunct re-runs the assignment from a state where `p1` was
assigned). -/
theorem c6_witness :
    ((["p2"] : List String).Nodup ∧
      (c6db.permissions.map (fun q => q.id)).Nodup ∧
      (c6db.roles.find? (fun r => r.id == "r1")).isSome = true ∧
      (∀ pid ∈ ["p2"], ∃ perm ∈ c6db.permissions, perm.id = pid)) ∧
    (∃ db2 view, assignPermissions c6db "r1" ["p2"] = .ok (db2, view) ∧
      db2.rolePermissions.filter (fun rp => rp.1 == "r1") =
        ["p2"].map (fun pid => ("r1", pid)) ∧
      db2.rolePermissions.filter (fun rp => !(rp.1 == "r1")) =
        c6db.rolePermissions.filter (fun rp => !(rp.1 == "r1")) ∧
      db2.roles = c6db.roles ∧ db2.permissions = c6db.permissions ∧
      db2.userRoles = c6db.userRoles) ∧
    c6dbAfterP2.rolePermissions.filter (fun rp => rp.1 == "r1") = [("r1", "p2")] :=
  ⟨⟨by decide, by decide, by decide, by decide⟩,
   (c6_assignPermissions_replaces c6db "r1" ["p2"] (by decide) (by decide)).2.2.1
     (by decide) (by decide),
   (c6_assignPermissions_replaces c6db "r1" ["p2"] (by decide) (by decide)).2.2.2
     c6dbAfterP1 c6dbAfterP2
     ⟨"r1", "admin", none, [⟨"p2", "users.write", none⟩], 0, 0, 0⟩
     "p2" rfl⟩

/-- Running the limiter over concatenated request sequences composes. -/
theorem rateLimiterRun_append (opts : RLOptions) (rf : Bool) (ts1 ts2 : List Int)
    (st : RLState) :
    rateLimiterRun opts rf (ts1 ++ ts2) st =
      ((rateLimiterRun opts rf ts2 (rateLimiterRun opts rf ts1 st).1).1,
       (rateLimiterRun opts rf ts1 st).2 ++
         (rateLimiterRun opts rf ts2 (rateLimiterRun opts rf ts1 st).1).2) := by
  induction ts1 generalizing st with
  | nil => simp [rateLimiterRun]
  | cons t ts ih => simp [rateLimiterRun, ih]

/-- A request at time `t` against `j < max` recorded entries at the same
time is allowed: the entry count is below the limit, the timestamp is
recorded and the expiry refreshed. -/
theorem step_replicate_allow (opts : RLOptions) (t E : Int) (j : Nat)
    (hw : 0 < opts.windowMs) (ht : 0 ≤ t) (hj : j < opts.max) :
    rateLimiterStep opts false t ⟨List.replicate j t, E⟩ =
      (⟨List.replicate (j + 1) t, t + (ceilDiv opts.windowMs.toNat 1000 : Int) * 1000⟩,
       .next [("X-RateLimit-Limit", toString opts.max),
              ("X-RateLimit-Remaining", toString (opts.max - j - 1)),
              ("X-RateLimit-Reset", toString (ceilDiv opts.windowMs.toNat 1000))]) := by
  have hfilter : zRemRangeByScore (List.replicate j t) 0 (t - opts.windowMs) =
      List.replicate j t := by
    unfold zRemRangeByScore
    rw [List.filter_eq_self]
    intro s hs
    have hst : s = t := List.eq_of_mem_replicate hs
    subst hst
    simp only [decide_eq_true_eq]
    omega
  unfold rateLimiterStep
  rw [if_neg (by simp)]
  simp only [hfilter, List.length_replicate]
  rw [if_neg (by omega)]
  rw [← List.replicate_succ']

/-- A request at time `t` against at least `max` recorded entries at the
same time is rejected with 429, remaining 0 and a Retry-After, and records
nothing. -/
theorem step_replicate_reject (opts : RLOptions) (t E : Int) (k : Nat)
    (hw : 0 < opts.windowMs) (ht : 0 ≤ t) (hk : opts.max ≤ k) :
    ∃ hs ra, rateLimiterStep opts false t ⟨List.replicate k t, E⟩ =
      (⟨List.replicate k t, E⟩, .reject 429 hs opts.message ra) ∧
      ("X-RateLimit-Limit", toString opts.max) ∈ hs ∧
      ("X-RateLimit-Remaining", "0") ∈ hs ∧
      ("X-RateLimit-Reset", toString ra) ∈ hs ∧
      ("Retry-After", toString ra) ∈ hs := by
  have hfilter : zRemRangeByScore (List.replicate k t) 0 (t - opts.windowMs) =
      List.replicate k t := by
    unfold zRemRangeByScore
    rw [List.filter_eq_self]
    intro s hs
    have hst : s = t := List.eq_of_mem_replicate hs
    subst hst
    simp only [decide_eq_true_eq]
    omega
  refine ⟨[("X-RateLimit-Limit", toString opts.max),
           ("X-RateLimit-Remaining", "0"),
           ("X-RateLimit-Reset", toString (if E - t > 0 then ceilDiv (E - t).toNat 1000
             else ceilDiv opts.windowMs.toNat 1000)),
           ("Retry-After", toString (if E - t > 0 then ceilDiv (E - t).toNat 1000
             else ceilDiv opts.windowMs.toNat 1000))],
          (if E - t > 0 then ceilDiv (E - t).toNat 1000
            else ceilDiv opts.windowMs.toNat 1000), ?_, ?_, ?_, ?_, ?_⟩
  · unfold rateLimiterStep
    rw [if_neg (by simp)]
    simp only [hfilter, List.length_replicate]
    rw [if_pos (by omega)]
  · simp
  · simp
  · simp
  · simp

/-- From `j` same-time entries, a burst of `k` more requests at that time is
fully admitted while `j + k` stays within the limit. -/
theorem rateLimiterRun_burst (opts : RLOptions) (t : Int)
    (hw : 0 < opts.windowMs) (ht : 0 ≤ t) :
    ∀ k j E, j + k ≤ opts.max →
      ∃ E2 outs,
        rateLimiterRun opts false (List.replicate k t) ⟨List.replicate j t, E⟩ =
          (⟨List.replicate (j + k) t, E2⟩, outs) ∧
        outs.length = k ∧ outs.all rlIsNext = true := by
  intro k
  induction k with
  | zero =>
    intro j E _
    exact ⟨E, [], by simp [rateLimiterRun], rfl, rfl⟩
  | succ n ih =>
    intro j E h
    obtain ⟨E2, outs, hrun, hlen, hall⟩ :=
      ih (j + 1) (t + (ceilDiv opts.windowMs.toNat 1000 : Int) * 1000) (by omega)
    refine ⟨E2, .next [("X-RateLimit-Limit", toString opts.max),
      ("X-RateLimit-Remaining", toString (opts.max - j - 1)),
      ("X-RateLimit-Reset", toString (ceilDiv opts.windowMs.toNat 1000))] :: outs,
      ?_, ?_, ?_⟩
    · rw [List.replicate_succ]
      simp only [rateLimiterRun]
      rw [step_replicate_allow opts t E j hw ht (by omega)]
      simp only [hrun]
      have hjn : j + 1 + n = j + (n + 1) := by omega
      rw [hjn]
    · simp [hlen]
    · simp only [List.all_cons, hall, Bool.and_true]
      rfl

/-- C7: on each request the rate limiter discards the entries at or before
`now - windowMs`, which for nonnegative recorded timestamps is exactly
discarding those outside the window, and counts the rest; at or above `max`
it rejects with 429, remaining 0, reset and Retry-After headers, recording
nothing; below `max` it records the timestamp, refreshes the key expiry to
the window size and proceeds with informational headers. Consequently the
`(max+1)`-th request of a same-instant burst in one window is rejected while
the first `max` pass, and once the window has elapsed the same key is
admitted again. -/
theorem c7_rate_limiter (opts : RLOptions) :
    (∀ st now, (∀ s ∈ st.entries, (0:Int) ≤ s) →
      (opts.max ≤ (st.entries.filter (fun s => decide (now - opts.windowMs < s))).length →
        ∃ hs ra, rateLimiterStep opts false now st =
          ({ st with entries :=
              st.entries.filter (fun s => decide (now - opts.windowMs < s)) },
           .reject 429 hs opts.message ra) ∧
          ("X-RateLimit-Limit", toString opts.max) ∈ hs ∧
          ("X-RateLimit-Remaining", "0") ∈ hs ∧
          ("Retry-After", toString ra) ∈ hs) ∧
      ((st.entries.filter (fun s => decide (now - opts.windowMs < s))).length < opts.max →
        rateLimiterStep opts false now st =
          (⟨st.entries.filter (fun s => decide (now - opts.windowMs < s)) ++ [now],
            now + (ceilDiv opts.windowMs.toNat 1000 : Int) * 1000⟩,
           .next [("X-RateLimit-Limit", toString opts.max),
                  ("X-RateLimit-Remaining", toString (opts.max -
                    (st.entries.filter (fun s => decide (now - opts.windowMs < s))).length - 1)),
                  ("X-RateLimit-Reset", toString (ceilDiv opts.windowMs.toNat 1000))]))) ∧
    (0 < opts.windowMs → ∀ t, 0 ≤ t →
      ∃ E2 outs hs ra,
        rateLimiterRun opts false (List.replicate (opts.max + 1) t) ⟨[], 0⟩ =
          (⟨List.replicate opts.max t, E2⟩, outs ++ [.reject 429 hs opts.message ra]) ∧
        outs.length = opts.max ∧ outs.all rlIsNext = true ∧
        ("X-RateLimit-Remaining", "0") ∈ hs) ∧
    (0 < opts.windowMs → 0 < opts.max → ∀ t t2 E, 0 ≤ t → t + opts.windowMs ≤ t2 →
      rlIsNext (rateLimiterStep opts false t2 ⟨List.replicate opts.max t, E⟩).2 = true) := by
  refine ⟨?_, ?_, ?_⟩
  · intro st now hpos
    have hkept : zRemRangeByScore st.entries 0 (now - opts.windowMs) =
        st.entries.filter (fun s => decide (now - opts.windowMs < s)) := by
      unfold zRemRangeByScore
      apply List.filter_congr
      intro s hs
      have h0 : (0:Int) ≤ s := hpos s hs
      rw [decide_eq_decide]
      omega
    constructor
    · intro hge
      refine ⟨[("X-RateLimit-Limit", toString opts.max),
               ("X-RateLimit-Remaining", "0"),
               ("X-RateLimit-Reset", toString (if st.expireAt - now > 0
                 then ceilDiv (st.expireAt - now).toNat 1000
                 else ceilDiv opts.windowMs.toNat 1000)),
               ("Retry-After", toString (if st.expireAt - now > 0
                 then ceilDiv (st.expireAt - now).toNat 1000
                 else ceilDiv opts.windowMs.toNat 1000))],
        (if st.expireAt - now > 0 then ceilDiv (st.expireAt - now).toNat 1000
          else ceilDiv opts.windowMs.toNat 1000), ?_, ?_, ?_, ?_⟩
      · unfold rateLimiterStep
        rw [if_neg (by simp)]
        simp only [hkept]
        rw [if_pos (by omega)]
      · simp
      · simp
      · simp
    · intro hlt
      unfold rateLimiterStep
      rw [if_neg (by simp)]
      simp only [hkept]
      rw [if_neg (by omega)]
  · intro hw t ht
    obtain ⟨E2, outs, hrun, hlen, hall⟩ :=
      rateLimiterRun_burst opts t hw ht opts.max 0 0 (by omega)
    simp only [Nat.zero_add, List.replicate_zero] at hrun
    obtain ⟨hs, ra, hstep, _, hrem, hreset, hretry⟩ :=
      step_replicate_reject opts t E2 opts.max hw ht (le_refl _)
    refine ⟨E2, outs, hs, ra, ?_, hlen, hall, hrem⟩
    rw [List.replicate_succ']
    rw [rateLimiterRun_append]
    rw [hrun]
    simp only [rateLimiterRun, hstep]
  · intro hw hm t t2 E ht h2
    have hfilter : zRemRangeByScore (List.replicate opts.max t) 0 (t2 - opts.windowMs) = [] := by
      unfold zRemRangeByScore
      rw [List.filter_eq_nil_iff]
      intro s hs
      have hst : s = t := List.eq_of_mem_replicate hs
      subst hst
      simp only [decide_eq_true_eq]
      omega
    unfold rateLimiterStep
    rw [if_neg (by simp)]
    simp only [hfilter, List.length_nil]
    rw [if_neg (by omega)]
    rfl

/-- C7 witness: with a 1-second window and `max = 2`, a fresh key admits a
request (recording it, remaining 1), a same-instant burst of three requests
admits two and rejects the third with 429 and remaining 0, and one window
after the burst the key is admitted again. -/
theorem c7_witness :
    (∀ s ∈ ([] : List Int), (0:Int) ≤ s) ∧ (0:Int) < c7opts.windowMs ∧
    rateLimiterStep c7opts false 100 ⟨[], 5⟩ =
      (⟨[100], 1100⟩,
       .next [("X-RateLimit-Limit", "2"), ("X-RateLimit-Remaining", "1"),
              ("X-RateLimit-Reset", "1")]) ∧
    (∃ E2 outs hs ra,
      rateLimiterRun c7opts false (List.replicate 3 0) ⟨[], 0⟩ =
        (⟨List.replicate 2 0, E2⟩, outs ++ [.reject 429 hs c7opts.message ra]) ∧
      outs.length = 2 ∧ outs.all rlIsNext = true ∧
      ("X-RateLimit-Remaining", "0") ∈ hs) ∧
    rlIsNext (rateLimiterStep c7opts false 1000 ⟨List.replicate 2 0, 0⟩).2 = true := by
  refine ⟨by decide, by decide, ?_, ?_, ?_⟩
  · exact ((c7_rate_limiter c7opts).1 ⟨[], 5⟩ 100 (by decide)).2 (by decide)
  · exact (c7_rate_limiter c7opts).2.1 (by decide) 0 (by decide)
  · exact (c7_rate_limiter c7opts).2.2 (by decide) (by decide) 0 1000 0 (by decide)
      (by decide)

end ExpressStarter
